import Mathlib

/-!
Verification of the Energy Management Calendar page (`src/app/page.tsx`).

The page is a single React component; its logic is embedded shallowly:
pure TypeScript expressions become Lean functions over `ℚ` (the JavaScript
numbers that arise in this program are exact small decimals), the stateful
handlers become functions from the current state to the next state, and the
date-fns collaborator is modelled on day numbers (Rata Die: day 1 is
0001-01-01, a Monday, hence `rd % 7 = 0` means Sunday, matching the
`weekStartsOn: 0` convention of the source).
-/

/-- The `EnergyType` union of `src/app/page.tsx`. -/
inductive EnergyType where
  | Demand
  | Production
  | Storage
  | Provision
deriving DecidableEq

/-- The `status` union of `EnergyEvent` in `src/app/page.tsx`. -/
inductive EventStatus where
  | Scheduled
  | Completed
  | Opportunity
deriving DecidableEq

/-- The `EnergyEvent` record of `src/app/page.tsx`.  `date` is kept as the
source keeps it: a `yyyy-MM-dd` string. -/
structure EnergyEvent where
  id : String
  title : String
  type : EnergyType
  date : String
  startTime : String
  endTime : String
  energyKwh : ℚ
  status : EventStatus
  efficiencyScore : ℚ
  notes : Option String := none
deriving DecidableEq

/-- JavaScript `Math.round`: round half toward positive infinity. -/
def jsRound (x : ℚ) : ℤ := Int.floor (x + 1 / 2)

/-- JavaScript `s.startsWith(pre)`. -/
def jsStartsWith (s pre : String) : Bool := pre.data.isPrefixOf s.data

/-- JavaScript `s.trim()`: drop whitespace from both ends. -/
def jsTrim (s : String) : String :=
  ⟨(((s.data.dropWhile Char.isWhitespace).reverse).dropWhile Char.isWhitespace).reverse⟩

/-- The accumulator object of the `totalsByType` reduce in `summary`
(`src/app/page.tsx` lines 187-198). -/
structure Totals where
  Demand : ℚ
  Production : ℚ
  Storage : ℚ
  Provision : ℚ
deriving DecidableEq

/-- One step of the `totalsByType` reduce: `acc[event.type] += event.energyKwh`. -/
def addEnergy (acc : Totals) (e : EnergyEvent) : Totals :=
  match e.type with
  | .Demand => { acc with Demand := acc.Demand + e.energyKwh }
  | .Production => { acc with Production := acc.Production + e.energyKwh }
  | .Storage => { acc with Storage := acc.Storage + e.energyKwh }
  | .Provision => { acc with Provision := acc.Provision + e.energyKwh }

/-- The object returned by the `summary` memo in `src/app/page.tsx`. -/
structure MonthSummary where
  totalsByType : Totals
  totalConsumption : ℚ
  totalProduction : ℚ
  storageBuffer : ℚ
  netBalance : ℚ
  completedCount : ℕ
  totalEvents : ℕ
  averageEfficiency : ℤ
deriving DecidableEq

/-- `events.filter((event) => event.date.startsWith(monthKey))` where
`monthKey = format(visibleMonth, "yyyy-MM")`. -/
def monthEvents (events : List EnergyEvent) (monthKey : String) : List EnergyEvent :=
  events.filter (fun e => jsStartsWith e.date monthKey)

/-- The `summary` computation of `src/app/page.tsx` lines 184-220, as a pure
function of the event collection and the visible month's `yyyy-MM` key. -/
def summary (events : List EnergyEvent) (monthKey : String) : MonthSummary :=
  let mE := monthEvents events monthKey
  let totalsByType := mE.foldl addEnergy ⟨0, 0, 0, 0⟩
  let totalConsumption := totalsByType.Demand
  let totalProduction := totalsByType.Production + totalsByType.Provision
  let storageBuffer := totalsByType.Storage
  let netBalance := totalProduction + storageBuffer - totalConsumption
  let completedCount := (mE.filter (fun e => e.status == .Completed)).length
  let averageEfficiency :=
    if 0 < mE.length then
      jsRound ((mE.foldl (fun acc e => acc + e.efficiencyScore) 0) / mE.length)
    else 0
  ⟨totalsByType, totalConsumption, totalProduction, storageBuffer, netBalance,
    completedCount, mE.length, averageEfficiency⟩

/-- One advisory record produced by the `recommendations` memo. -/
structure Advisory where
  title : String
  detail : String
deriving DecidableEq

/-- The titles selected by rule 3 of the recommendation engine:
`events.filter(e => e.efficiencyScore < 70).slice(0, 2).map(e => e.title)`. -/
def lowEfficiencyTitles (events : List EnergyEvent) : List String :=
  ((events.filter (fun e => decide (e.efficiencyScore < 70))).take 2).map (fun e => e.title)

/-- The `recommendations` memo of `src/app/page.tsx` lines 222-260, with the
imperative `recs.push` calls rendered as list appends in rule order. -/
def recommendations (s : MonthSummary) (events : List EnergyEvent) : List Advisory :=
  let recs0 : List Advisory :=
    if s.netBalance < 0 then
      [⟨"Net Load Imbalance",
        "Demand outpaces supply this month. Shift flexible loads (e.g., EV charging) into early morning windows or increase storage dispatch."⟩]
    else
      [⟨"Positive Net Balance",
        "You're producing more energy than you consume. Schedule a provision event to export surplus during afternoon peak pricing."⟩]
  let recs1 :=
    if s.totalsByType.Demand > s.totalsByType.Production * (1.2 : ℚ) then
      recs0 ++
        [⟨"Demand Peaks Forecasted",
          "Forecasted demand is 20% above on-site production. Consider adding a demand response event or activating backup generation."⟩]
    else recs0
  let lowTitles := lowEfficiencyTitles events
  if 0 < lowTitles.length then
    recs1 ++
      [⟨"Improve Efficiency Scores",
        "Optimize schedules for " ++ String.intercalate " & " lowTitles ++
          " to boost their efficiency ratings above 70%."⟩]
  else recs1

/-- The draft-form state held by `useState` as `newEvent` in `src/app/page.tsx`. -/
structure NewEventForm where
  title : String
  type : EnergyType
  date : String
  startTime : String
  endTime : String
  energyKwh : String
  status : EventStatus
  notes : String
deriving DecidableEq

/-- The initial draft form (`src/app/page.tsx` lines 160-169), parameterised
by today's `yyyy-MM-dd` string. -/
def initialNewEvent (today : String) : NewEventForm :=
  ⟨"", .Demand, today, "08:00", "09:00", "", .Scheduled, ""⟩

/-- `value.replace(/[^0-9.]/g, "")`: drop every character that is not a
decimal digit or a dot. -/
def sanitizeEnergyInput (value : String) : String :=
  String.mk (value.data.filter (fun c => c.isDigit || c == '.'))

/-- Decoder for the `type` select.  The source stores the raw option string
under an unchecked cast; the select only ever emits the four names below, so
the decode is total with the previous value as (unreachable) fallback. -/
def decodeType (value : String) (fallback : EnergyType) : EnergyType :=
  if value = "Demand" then .Demand
  else if value = "Production" then .Production
  else if value = "Storage" then .Storage
  else if value = "Provision" then .Provision
  else fallback

/-- Decoder for the `status` select, with the same convention as `decodeType`. -/
def decodeStatus (value : String) (fallback : EventStatus) : EventStatus :=
  if value = "Scheduled" then .Scheduled
  else if value = "Completed" then .Completed
  else if value = "Opportunity" then .Opportunity
  else fallback

/-- The `handleChange` field updater of `src/app/page.tsx` lines 266-271:
the energy field is sanitised, every other field stores the raw value. -/
def handleChange (form : NewEventForm) (field : String) (value : String) : NewEventForm :=
  if field = "energyKwh" then { form with energyKwh := sanitizeEnergyInput value }
  else if field = "title" then { form with title := value }
  else if field = "date" then { form with date := value }
  else if field = "startTime" then { form with startTime := value }
  else if field = "endTime" then { form with endTime := value }
  else if field = "notes" then { form with notes := value }
  else if field = "type" then { form with type := decodeType value form.type }
  else if field = "status" then { form with status := decodeStatus value form.status }
  else form

/-- A non-empty all-digit character run, decoded to its value. -/
def parseNatDigits (cs : List Char) : Option ℕ :=
  if !cs.isEmpty && cs.all (fun c => c.isDigit) then
    some (cs.foldl (fun a c => 10 * a + (c.toNat - 48)) 0)
  else none

/-- Unsigned decimal mantissa: `digits`, `digits.`, `.digits` or
`digits.digits`; a lone dot or a second dot is NaN. -/
def parseMantissa (cs : List Char) : Option ℚ :=
  match cs.splitOn '.' with
  | [ip] => (parseNatDigits ip).map (fun n => (n : ℚ))
  | [ip, fp] =>
    if ip.isEmpty && fp.isEmpty then none
    else if fp.isEmpty then (parseNatDigits ip).map (fun n => (n : ℚ))
    else if ip.isEmpty then
      (parseNatDigits fp).map (fun n => (n : ℚ) / 10 ^ fp.length)
    else do
      let i ← parseNatDigits ip
      let f ← parseNatDigits fp
      pure ((i : ℚ) + (f : ℚ) / 10 ^ fp.length)
  | _ => none

/-- Mantissa with an optional sign. -/
def parseSignedMantissa (cs : List Char) : Option ℚ :=
  match cs with
  | '+' :: rest => parseMantissa rest
  | '-' :: rest => (parseMantissa rest).map (fun q => -q)
  | _ => parseMantissa cs

/-- Exponent part: optional sign followed by digits. -/
def parseSignedExponent (cs : List Char) : Option ℤ :=
  match cs with
  | '+' :: rest => (parseNatDigits rest).map (fun n => (n : ℤ))
  | '-' :: rest => (parseNatDigits rest).map (fun n => -(n : ℤ))
  | _ => (parseNatDigits cs).map (fun n => (n : ℤ))

/-- JavaScript `Number(s)` restricted to decimal literals: surrounding
whitespace is trimmed, the empty string is `0`, and a signed decimal
mantissa with optional `e`/`E` exponent is decoded exactly; strings JS would
read as non-decimal numbers (hex literals, `Infinity`) have no value in `ℚ`,
cannot reach the energy field (which is filtered to digits and dots), and
are mapped to `none` like every other non-numeric string.  `none` plays the
role of `NaN`. -/
def jsNumber (s : String) : Option ℚ :=
  let cs := (jsTrim s).data
  if cs.isEmpty then some 0
  else
    match (cs.map (fun c => if c == 'E' then 'e' else c)).splitOn 'e' with
    | [m] => parseSignedMantissa m
    | [m, ex] => do
      let mv ← parseSignedMantissa m
      let ev ← parseSignedExponent ex
      pure (mv * (10 : ℚ) ^ ev)
    | _ => none

/-- The `efficiencyScore` derivation of `src/app/page.tsx` line 292:
`Math.min(100, Math.max(40, Math.round(e > 500 ? 80 : 90 - e / 10)))`. -/
def derivedScore (e : ℚ) : ℤ :=
  min 100 (max 40 (jsRound (if e > 500 then 80 else 90 - e / 10)))

/-- The event record built on an accepted submission (`src/app/page.tsx`
lines 283-294).  The template literal `event-${Date.now()}` is modelled with
the timestamp `ts` passed in explicitly. -/
def mkEvent (ts : ℕ) (form : NewEventForm) (energyValue : ℚ) : EnergyEvent :=
  { id := "event-" ++ Nat.repr ts
    title := jsTrim form.title
    type := form.type
    date := form.date
    startTime := form.startTime
    endTime := form.endTime
    energyKwh := energyValue
    status := form.status
    efficiencyScore := (derivedScore energyValue : ℚ)
    notes := if jsTrim form.notes = "" then none else some (jsTrim form.notes) }

/-- `handleCreateEvent` of `src/app/page.tsx` lines 273-306: validate the
draft, and either leave the state alone or append the new event and reset
the draft. -/
def handleCreateEvent (ts : ℕ) (form : NewEventForm) (events : List EnergyEvent) :
    List EnergyEvent × NewEventForm :=
  if jsTrim form.title = "" ∨ form.date = "" ∨ form.energyKwh = "" then (events, form)
  else
    match jsNumber form.energyKwh with
    | none => (events, form)
    | some energyValue =>
      if energyValue ≤ 0 then (events, form)
      else
        (events ++ [mkEvent ts form energyValue],
          { title := ""
            type := form.type
            date := form.date
            startTime := "08:00"
            endTime := "09:00"
            energyKwh := ""
            status := form.status
            notes := "" })

/-- A sequence of form submissions (timestamp and draft pairs) folded
through `handleCreateEvent`, observing the event store. -/
def runSubmissions (events : List EnergyEvent) (subs : List (ℕ × NewEventForm)) :
    List EnergyEvent :=
  subs.foldl (fun evs sub => (handleCreateEvent sub.1 sub.2 evs).1) events

/-- Gregorian leap-year test. -/
def isLeapYear (y : ℕ) : Bool :=
  (y % 4 == 0 && y % 100 != 0) || y % 400 == 0

/-- Number of days in month `m` (1-12) of year `y`. -/
def monthLength (y m : ℕ) : ℕ :=
  match m with
  | 2 => if isLeapYear y then 29 else 28
  | 4 => 30
  | 6 => 30
  | 9 => 30
  | 11 => 30
  | _ => 31

/-- Days of year `y` that precede month `m`. -/
def daysBeforeMonth (y m : ℕ) : ℕ :=
  ((List.range (m - 1)).map (fun k => monthLength y (k + 1))).sum

/-- Rata Die day number of `y-m-d`: day 1 is 0001-01-01, a Monday. -/
def rataDie (y m d : ℕ) : ℤ :=
  let py : ℤ := (y : ℤ) - 1
  365 * py + py / 4 - py / 100 + py / 400 + (daysBeforeMonth y m : ℤ) + (d : ℤ)

/-- date-fns `startOfWeek` with `weekStartsOn: 0` on day numbers: move back
to the previous Sunday (day numbers divisible by 7 are Sundays). -/
def startOfWeekDay (day : ℤ) : ℤ := day - day % 7

/-- date-fns `endOfWeek` with `weekStartsOn: 0` on day numbers: move forward
to the next Saturday. -/
def endOfWeekDay (day : ℤ) : ℤ := day + (6 - day % 7)

/-- The `monthInterval` memo of `src/app/page.tsx` lines 171-175:
`eachDayOfInterval` from `startOfWeek(startOfMonth m)` to
`endOfWeek(endOfMonth m)`, on day numbers. -/
def monthInterval (y m : ℕ) : List ℤ :=
  let first := rataDie y m 1
  let last := rataDie y m (monthLength y m)
  let start := startOfWeekDay first
  let stop := endOfWeekDay last
  (List.range (stop - start + 1).toNat).map (fun i : ℕ => start + (i : ℤ))

/-- The seed `initialEvents` array (`src/app/page.tsx` lines 32-117); the
source formats each date from `new Date()`, so the collection is a function
of today's `yyyy-MM` key. -/
def initialEvents (monthKey : String) : List EnergyEvent :=
  [⟨"event-1", "EV Fleet Charging", .Demand, monthKey ++ "-05", "19:00", "22:30", 420,
      .Scheduled, 68, some "Aligned with evening time-of-use incentives."⟩,
    ⟨"event-2", "Solar Array Generation", .Production, monthKey ++ "-06", "07:30", "17:30", 560,
      .Completed, 92, some "Exceeded forecast by 8% due to clear skies."⟩,
    ⟨"event-3", "Battery Reserve Charge", .Storage, monthKey ++ "-08", "00:30", "02:00", 135,
      .Scheduled, 83, some "Nighttime charging to prep for peak shifting."⟩,
    ⟨"event-4", "Community Energy Share", .Provision, monthKey ++ "-10", "14:00", "16:00", 220,
      .Completed, 88, some "Delivered surplus to adjacent microgrid."⟩,
    ⟨"event-5", "Data Center Load Test", .Demand, monthKey ++ "-15", "13:00", "15:00", 315,
      .Scheduled, 54, some "Consider shifting to weekend window."⟩,
    ⟨"event-6", "Wind Turbine Peak", .Production, monthKey ++ "-17", "02:00", "05:00", 410,
      .Completed, 79, some "Met forecast; turbulence reduced output by 5%."⟩,
    ⟨"event-7", "Thermal Storage Discharge", .Storage, monthKey ++ "-22", "16:30", "19:00", 190,
      .Opportunity, 72, some "Dispatch to cover peak pricing interval."⟩]

/-- Total `energyKwh` over the events of one type in a collection. -/
def sumType (t : EnergyType) (l : List EnergyEvent) : ℚ :=
  ((l.filter (fun e => e.type == t)).map (fun e => e.energyKwh)).sum

theorem sumType_cons (t : EnergyType) (e : EnergyEvent) (l : List EnergyEvent) :
    sumType t (e :: l) = (if e.type = t then e.energyKwh else 0) + sumType t l := by
  by_cases h : e.type = t <;> simp [sumType, List.filter_cons, h]

theorem foldl_addEnergy (l : List EnergyEvent) (acc : Totals) :
    l.foldl addEnergy acc =
      ⟨acc.Demand + sumType .Demand l, acc.Production + sumType .Production l,
        acc.Storage + sumType .Storage l, acc.Provision + sumType .Provision l⟩ := by
  induction l generalizing acc with
  | nil => simp [sumType]
  | cons e l ih =>
    rw [List.foldl_cons, ih]
    cases h : e.type <;>
      simp [addEnergy, h, sumType_cons, add_assoc]

/-- C1: for every event collection and every visible month, the computed
`MonthSummary` satisfies `netBalance = (Production total + Provision total) +
Storage total - Demand total`, each total being the sum of `energyKwh` over
the month's events of that type. -/
theorem netBalance_eq_totals (events : List EnergyEvent) (monthKey : String) :
    (summary events monthKey).netBalance =
      (sumType .Production (monthEvents events monthKey) +
          sumType .Provision (monthEvents events monthKey)) +
        sumType .Storage (monthEvents events monthKey) -
        sumType .Demand (monthEvents events monthKey) := by
  simp [summary, foldl_addEnergy]

/-- C2: the recommendation list always contains exactly one of the two
balance advisories, the "Net Load Imbalance" one exactly when
`netBalance < 0`, and its total length is between 1 and 3. -/
theorem recommendations_balance_advisory (s : MonthSummary) (events : List EnergyEvent) :
    ((recommendations s events).countP (fun r => r.title == "Net Load Imbalance") +
        (recommendations s events).countP (fun r => r.title == "Positive Net Balance") = 1) ∧
      ((recommendations s events).countP (fun r => r.title == "Net Load Imbalance") = 1 ↔
        s.netBalance < 0) ∧
      1 ≤ (recommendations s events).length ∧ (recommendations s events).length ≤ 3 := by
  unfold recommendations
  by_cases h1 : s.netBalance < 0 <;>
    by_cases h2 : s.totalsByType.Demand > s.totalsByType.Production * (1.2 : ℚ) <;>
      by_cases h3 : 0 < (lowEfficiencyTitles events).length <;>
        simp [h1, h2, h3, List.countP_cons, List.countP_append]

theorem foldl_add_eff (l : List EnergyEvent) (a : ℚ) :
    l.foldl (fun acc e => acc + e.efficiencyScore) a =
      a + (l.map (fun e => e.efficiencyScore)).sum := by
  induction l generalizing a with
  | nil => simp
  | cons e l ih => simp [ih, add_assoc]

/-- C3: when at least one event matches the month's `yyyy-MM` prefix,
`averageEfficiency` is the rounded mean of `efficiencyScore` over exactly
the matching events; with no match it is exactly 0. -/
theorem averageEfficiency_eq_rounded_mean (events : List EnergyEvent) (monthKey : String) :
    (monthEvents events monthKey ≠ [] →
      (summary events monthKey).averageEfficiency =
        jsRound (((monthEvents events monthKey).map (fun e => e.efficiencyScore)).sum /
          (monthEvents events monthKey).length)) ∧
      (monthEvents events monthKey = [] →
        (summary events monthKey).averageEfficiency = 0) := by
  constructor
  · intro h
    have hlen : 0 < (monthEvents events monthKey).length := List.length_pos.mpr h
    simp [summary, hlen, foldl_add_eff]
  · intro h
    simp [summary, h]

/-- Witness for C3 at the seed events of March 2024: all seven events match
the month prefix. -/
theorem averageEfficiency_eq_rounded_mean_witness :
    (summary (initialEvents "2024-03") "2024-03").averageEfficiency =
      jsRound (((monthEvents (initialEvents "2024-03") "2024-03").map
          (fun e => e.efficiencyScore)).sum /
        (monthEvents (initialEvents "2024-03") "2024-03").length) :=
  (averageEfficiency_eq_rounded_mean (initialEvents "2024-03") "2024-03").1
    (List.length_pos.mp (by decide))

theorem monthLength_pos (y m : ℕ) : 1 ≤ monthLength y m := by
  unfold monthLength
  split
  · split <;> omega
  all_goals omega

theorem rataDie_day (y m d : ℕ) : rataDie y m d = rataDie y m 1 + (d : ℤ) - 1 := by
  unfold rataDie
  push_cast
  ring

/-- C4: for every reference month the date grid has length a multiple of 7,
contains every date of the target month exactly once, has no duplicates, and
steps by exactly one day between consecutive entries. -/
theorem monthInterval_grid (y m : ℕ) :
    (monthInterval y m).length % 7 = 0 ∧
      (∀ d : ℕ, 1 ≤ d → d ≤ monthLength y m →
        (monthInterval y m).count (rataDie y m d) = 1) ∧
      (monthInterval y m).Nodup ∧
      (∀ i : ℕ, ∀ h : i + 1 < (monthInterval y m).length,
        (monthInterval y m).get ⟨i + 1, h⟩ =
          (monthInterval y m).get ⟨i, by omega⟩ + 1) := by
  have hn : 1 ≤ monthLength y m := monthLength_pos y m
  have hlast := rataDie_day y m (monthLength y m)
  have hd' : ∀ d : ℕ, rataDie y m d = rataDie y m 1 + (d : ℤ) - 1 := fun d => rataDie_day y m d
  unfold monthInterval startOfWeekDay endOfWeekDay
  rw [hlast]
  generalize hF : rataDie y m 1 = F at hd'
  generalize hN : monthLength y m = N at hn
  have hinj : Function.Injective (fun i : ℕ => F - F % 7 + (i : ℤ)) := by
    intro i j hij
    simp only [add_right_inj, Nat.cast_inj] at hij
    exact hij
  have hnodup :
      ((List.range ((F + ↑N - 1 + (6 - (F + ↑N - 1) % 7) - (F - F % 7) + 1).toNat)).map
        (fun i : ℕ => F - F % 7 + (i : ℤ))).Nodup :=
    (List.nodup_range _).map hinj
  refine ⟨?_, fun d hd1 hd2 => List.count_eq_one_of_mem hnodup ?_, hnodup, fun i h => ?_⟩
  · simp only [List.length_map, List.length_range]
    omega
  · rw [hd' d]
    simp only [List.mem_map, List.mem_range]
    refine ⟨(F % 7).toNat + (d - 1), ?_, ?_⟩
    · omega
    · omega
  · simp only [List.get_eq_getElem, List.getElem_map, List.getElem_range]
    push_cast
    ring

/-- Witness for C4 at February 2024 (a leap year): the grid length is a
multiple of 7 and the 29th appears exactly once. -/
theorem monthInterval_grid_witness :
    (monthInterval 2024 2).length % 7 = 0 ∧
      (monthInterval 2024 2).count (rataDie 2024 2 29) = 1 :=
  ⟨(monthInterval_grid 2024 2).1,
    (monthInterval_grid 2024 2).2.1 29 (by omega) (by decide)⟩

/-- C5: any of the five validation failures leaves both the event store and
the draft form exactly as they were. -/
theorem handleCreateEvent_rejects_invalid (ts : ℕ) (form : NewEventForm)
    (events : List EnergyEvent)
    (h : jsTrim form.title = "" ∨ form.date = "" ∨ form.energyKwh = "" ∨
      jsNumber form.energyKwh = none ∨
      ∃ v, jsNumber form.energyKwh = some v ∧ v ≤ 0) :
    handleCreateEvent ts form events = (events, form) := by
  rcases h with h | h | h | h | ⟨v, hv, hv0⟩
  · simp [handleCreateEvent, h]
  · simp [handleCreateEvent, h]
  · simp [handleCreateEvent, h]
  · unfold handleCreateEvent
    split
    · rfl
    · rw [h]
  · unfold handleCreateEvent
    split
    · rfl
    · rw [hv]
      simp [hv0]

/-- A draft whose energy text does not parse as a number. -/
def rejectForm : NewEventForm :=
  ⟨"Load Test", .Demand, "2024-01-05", "08:00", "09:00", "abc", .Scheduled, ""⟩

/-- Witness for C5: submitting energy text "abc" changes nothing. -/
theorem handleCreateEvent_rejects_invalid_witness :
    handleCreateEvent 0 rejectForm [] = ([], rejectForm) :=
  handleCreateEvent_rejects_invalid 0 rejectForm []
    (Or.inr (Or.inr (Or.inr (Or.inl (by decide)))))

theorem handleCreateEvent_accepts (ts : ℕ) (form : NewEventForm)
    (events : List EnergyEvent) (e : ℚ)
    (ht : ¬jsTrim form.title = "") (hd : ¬form.date = "") (he : ¬form.energyKwh = "")
    (hp : jsNumber form.energyKwh = some e) (hpos : 0 < e) :
    handleCreateEvent ts form events =
      (events ++ [mkEvent ts form e],
        ⟨"", form.type, form.date, "08:00", "09:00", "", form.status, ""⟩) := by
  unfold handleCreateEvent
  rw [if_neg (by tauto), hp]
  show (if e ≤ 0 then (events, form) else _) = _
  rw [if_neg (not_le.mpr hpos)]

/-- C6: an accepted submission appends an event whose `efficiencyScore` is
the clamped derivation formula; at 600, 100 and 50 kWh the scores are 80, 80
and 85. -/
theorem created_efficiencyScore (ts : ℕ) (form : NewEventForm)
    (events : List EnergyEvent) (e : ℚ)
    (ht : ¬jsTrim form.title = "") (hd : ¬form.date = "") (he : ¬form.energyKwh = "")
    (hp : jsNumber form.energyKwh = some e) (hpos : 0 < e) :
    (handleCreateEvent ts form events).1 = events ++ [mkEvent ts form e] ∧
      (mkEvent ts form e).efficiencyScore =
        (((min 100 (max 40 (if e > 500 then (80 : ℤ) else jsRound (90 - e / 10)))) : ℤ) : ℚ) ∧
      derivedScore 600 = 80 ∧ derivedScore 100 = 80 ∧ derivedScore 50 = 85 := by
  refine ⟨?_, ?_, ?_, ?_, ?_⟩
  · rw [handleCreateEvent_accepts ts form events e ht hd he hp hpos]
  · show ((derivedScore e : ℤ) : ℚ) = _
    have h80 : jsRound 80 = 80 := by norm_num [jsRound]
    unfold derivedScore
    by_cases hcase : e > 500
    · rw [if_pos hcase, if_pos hcase, h80]
    · rw [if_neg hcase, if_neg hcase]
  · norm_num [derivedScore, jsRound]
  · norm_num [derivedScore, jsRound]
  · norm_num [derivedScore, jsRound]

/-- A draft that passes validation with energy text "100". -/
def acceptForm : NewEventForm :=
  ⟨"Solar Boost", .Production, "2024-01-06", "08:00", "09:00", "100", .Scheduled, ""⟩

/-- Witness for C6 at energy text "100". -/
theorem created_efficiencyScore_witness :
    (handleCreateEvent 7 acceptForm []).1 = [] ++ [mkEvent 7 acceptForm 100] ∧
      (mkEvent 7 acceptForm 100).efficiencyScore =
        (((min 100 (max 40 (if (100 : ℚ) > 500 then (80 : ℤ) else jsRound (90 - 100 / 10)))) : ℤ) : ℚ) ∧
      derivedScore 600 = 80 ∧ derivedScore 100 = 80 ∧ derivedScore 50 = 85 :=
  created_efficiencyScore 7 acceptForm [] 100 (by decide) (by decide) (by decide)
    (by decide) (by decide)

/-- C9: after an accepted submission the draft's start and end times are
reset to the fixed defaults, regardless of the submitted values. -/
theorem submit_resets_times (ts : ℕ) (form : NewEventForm)
    (events : List EnergyEvent) (e : ℚ)
    (ht : ¬jsTrim form.title = "") (hd : ¬form.date = "") (he : ¬form.energyKwh = "")
    (hp : jsNumber form.energyKwh = some e) (hpos : 0 < e) :
    (handleCreateEvent ts form events).2.startTime = "08:00" ∧
      (handleCreateEvent ts form events).2.endTime = "09:00" := by
  rw [handleCreateEvent_accepts ts form events e ht hd he hp hpos]
  exact ⟨rfl, rfl⟩

/-- A draft with non-default start and end times that passes validation. -/
def lateForm : NewEventForm :=
  ⟨"Night Shift", .Storage, "2024-01-07", "21:15", "23:45", "50", .Completed, ""⟩

/-- Witness for C9: the submitted times "21:15" and "23:45" are replaced by
the defaults. -/
theorem submit_resets_times_witness :
    (handleCreateEvent 9 lateForm []).2.startTime = "08:00" ∧
      (handleCreateEvent 9 lateForm []).2.endTime = "09:00" :=
  submit_resets_times 9 lateForm [] 50 (by decide) (by decide) (by decide)
    (by decide) (by decide)

/-- C10: for positive energy the derived score lies in [40, 90], so the
upper clamp at 100 never changes the result. -/
theorem derivedScore_range (e : ℚ) (hpos : 0 < e) :
    40 ≤ derivedScore e ∧ derivedScore e ≤ 90 ∧
      min 100 (max 40 (jsRound (if e > 500 then 80 else 90 - e / 10))) =
        max 40 (jsRound (if e > 500 then 80 else 90 - e / 10)) := by
  have key : ∀ x : ℚ, 40 ≤ x → x < 90 → 40 ≤ jsRound x ∧ jsRound x ≤ 90 := by
    intro x h1 h2
    unfold jsRound
    constructor
    · exact Int.le_floor.mpr (by push_cast; linarith)
    · have h91 : Int.floor (x + 1 / 2) < 91 := Int.floor_lt.mpr (by push_cast; linarith)
      omega
  have hb : 40 ≤ jsRound (if e > 500 then 80 else 90 - e / 10) ∧
      jsRound (if e > 500 then 80 else 90 - e / 10) ≤ 90 := by
    by_cases hcase : e > 500
    · rw [if_pos hcase]
      exact key 80 (by norm_num) (by norm_num)
    · rw [if_neg hcase]
      push_neg at hcase
      exact key _ (by linarith) (by linarith)
  obtain ⟨hb1, hb2⟩ := hb
  unfold derivedScore
  refine ⟨?_, ?_, ?_⟩ <;> omega

/-- Witness for C10 at 1 kWh. -/
theorem derivedScore_range_witness :
    40 ≤ derivedScore 1 ∧ derivedScore 1 ≤ 90 ∧
      min 100 (max 40 (jsRound (if (1 : ℚ) > 500 then 80 else 90 - 1 / 10))) =
        max 40 (jsRound (if (1 : ℚ) > 500 then 80 else 90 - 1 / 10)) :=
  derivedScore_range 1 (by decide)

/-- C7 as stated is false: the sanitiser `value.replace(/[^0-9.]/g, "")`
does not limit the stored text to a single decimal point; typing "1..2"
stores a text with two dots. -/
theorem energyInput_two_dots_stored :
    ¬((handleChange (initialNewEvent "2024-01-01") "energyKwh" "1..2").energyKwh.data.count
        '.' ≤ 1) := by
  decide

/-- C7 amended: after the field-update transformation the stored energy text
contains only decimal digits and dots (but possibly several dots). -/
theorem energyInput_digits_dots_only (form : NewEventForm) (value : String) :
    ∀ c ∈ (handleChange form "energyKwh" value).energyKwh.data, c.isDigit ∨ c = '.' := by
  intro c hc
  simp only [handleChange, if_pos, sanitizeEnergyInput] at hc
  rcases List.mem_filter.mp hc with ⟨_, hprop⟩
  rcases Bool.or_eq_true_iff.mp hprop with hd | hd
  · exact Or.inl hd
  · exact Or.inr (by simpa using hd)

/-- Witness for C7's amended statement on the raw input "a1.". -/
theorem energyInput_digits_dots_only_witness :
    Char.isDigit '1' = true ∨ '1' = '.' :=
  energyInput_digits_dots_only (initialNewEvent "2024-01-01") "a1." '1' (by decide)

/-- C8 as stated is false: `Date.now()` is not injective across submissions,
so two accepted submissions in the same millisecond (timestamp 5 here) are
assigned the same id. -/
theorem event_id_collision :
    ¬(((runSubmissions [] [(5, acceptForm), (5, acceptForm)]).map
        (fun e => e.id)).Nodup) := by
  decide

theorem toDigitsCore_append (b f : ℕ) :
    ∀ (n : ℕ) (ds : List Char),
      Nat.toDigitsCore b f n ds = Nat.toDigitsCore b f n [] ++ ds := by
  induction f with
  | zero => intro n ds; simp [Nat.toDigitsCore]
  | succ f ih =>
    intro n ds
    simp only [Nat.toDigitsCore]
    by_cases h : n / b = 0
    · simp [h]
    · simp only [h, if_false]
      rw [ih (n / b) (Nat.digitChar (n % b) :: ds), ih (n / b) [Nat.digitChar (n % b)]]
      simp

/-- Decimal decoding of a digit-character run, inverse to `Nat.toDigitsCore`. -/
def decodeDigits (cs : List Char) : ℕ :=
  cs.foldl (fun a c => 10 * a + (c.toNat - 48)) 0

theorem decodeDigits_append_one (l : List Char) (c : Char) :
    decodeDigits (l ++ [c]) = 10 * decodeDigits l + (c.toNat - 48) := by
  simp [decodeDigits, List.foldl_append]

theorem digitChar_decode : ∀ m : ℕ, m < 10 → (Nat.digitChar m).toNat - 48 = m := by
  decide

theorem decode_toDigitsCore (f : ℕ) :
    ∀ n : ℕ, n < f → decodeDigits (Nat.toDigitsCore 10 f n []) = n := by
  induction f with
  | zero => omega
  | succ f ih =>
    intro n hn
    simp only [Nat.toDigitsCore]
    by_cases h : n / 10 = 0
    · have h10 : n < 10 := by omega
      simp [h, decodeDigits, digitChar_decode (n % 10) (by omega)]
      omega
    · simp only [h, if_false]
      rw [toDigitsCore_append 10 f (n / 10) [Nat.digitChar (n % 10)]]
      rw [decodeDigits_append_one, ih (n / 10) (by omega),
        digitChar_decode (n % 10) (by omega)]
      omega

theorem natRepr_inj {m n : ℕ} (h : Nat.repr m = Nat.repr n) : m = n := by
  have hd : Nat.toDigits 10 m = Nat.toDigits 10 n := by
    have := congrArg String.data h
    simpa [Nat.repr, List.asString] using this
  have hm := decode_toDigitsCore (m + 1) m (by omega)
  have hn := decode_toDigitsCore (n + 1) n (by omega)
  unfold Nat.toDigits at hd
  rw [← hm, ← hn, hd]

theorem eventId_inj {m n : ℕ}
    (h : "event-" ++ Nat.repr m = "event-" ++ Nat.repr n) : m = n := by
  apply natRepr_inj
  have hd := congrArg String.data h
  simp only [String.data_append] at hd
  exact String.ext (List.append_cancel_left hd)

theorem runSubmissions_cons (events : List EnergyEvent) (s : ℕ × NewEventForm)
    (subs : List (ℕ × NewEventForm)) :
    runSubmissions events (s :: subs) =
      runSubmissions (handleCreateEvent s.1 s.2 events).1 subs := rfl

theorem handleCreateEvent_fst (ts : ℕ) (form : NewEventForm)
    (events : List EnergyEvent) :
    (handleCreateEvent ts form events).1 = events ∨
      ∃ v, (handleCreateEvent ts form events).1 = events ++ [mkEvent ts form v] := by
  unfold handleCreateEvent
  split
  · exact Or.inl rfl
  · rcases hj : jsNumber form.energyKwh with _ | v
    · exact Or.inl rfl
    · by_cases hv : v ≤ 0
      · simp [hv]
      · simp [hv]

/-- C8 amended: the ids of the events created by a sequence of submissions
are pairwise distinct and distinct from all pre-existing ids, provided the
submissions carry pairwise-distinct timestamps and no pre-existing id has
the form `event-<timestamp>`. -/
theorem runSubmissions_ids_nodup (subs : List (ℕ × NewEventForm)) :
    ∀ events : List EnergyEvent,
      (events.map (fun e => e.id)).Nodup →
      (subs.map (fun s => s.1)).Nodup →
      (∀ e ∈ events, ∀ s ∈ subs, e.id ≠ "event-" ++ Nat.repr s.1) →
      ((runSubmissions events subs).map (fun e => e.id)).Nodup := by
  induction subs with
  | nil =>
    intro events hev _ _
    simpa [runSubmissions] using hev
  | cons sub rest ih =>
    intro events hev hts hold
    obtain ⟨ts, f⟩ := sub
    have hts' : (rest.map (fun s => s.1)).Nodup := (List.nodup_cons.mp hts).2
    have htsmem : ts ∉ rest.map (fun s => s.1) := (List.nodup_cons.mp hts).1
    rw [runSubmissions_cons]
    rcases handleCreateEvent_fst ts f events with hE | ⟨v, hE⟩
    · rw [hE]
      exact ih events hev hts' (fun e he s hs => hold e he s (List.mem_cons_of_mem _ hs))
    · rw [hE]
      apply ih (events ++ [mkEvent ts f v])
      · rw [List.map_append, List.nodup_append]
        refine ⟨hev, by simp, ?_⟩
        intro a ha hb
        rcases List.mem_map.mp ha with ⟨e, he, rfl⟩
        have : e.id = (mkEvent ts f v).id := by simpa using hb
        exact hold e he (ts, f) (List.mem_cons_self _ _) this
      · exact hts'
      · intro e he s hs
        rcases List.mem_append.mp he with he | he
        · exact hold e he s (List.mem_cons_of_mem _ hs)
        · have heq : e = mkEvent ts f v := by simpa using he
          subst heq
          intro hcontra
          apply htsmem
          have hts_eq : ts = s.1 := eventId_inj hcontra
          rw [hts_eq]
          exact List.mem_map.mpr ⟨s, hs, rfl⟩

/-- Witness for C8's amended statement: two accepted submissions at the
distinct timestamps 1 and 2 produce distinct ids. -/
theorem runSubmissions_ids_nodup_witness :
    ((runSubmissions [] [(1, acceptForm), (2, acceptForm)]).map
      (fun e => e.id)).Nodup :=
  runSubmissions_ids_nodup [(1, acceptForm), (2, acceptForm)] []
    (by simp) (by decide) (by simp)
